import Mathlib

/-!
Shallow embedding of `ethcore/transaction/src/transaction/legacy.rs` from
KomodoPlatform/mm2-parity-ethereum: the legacy Ethereum transaction codec,
the unverified signed-transaction envelope, and the EIP-155 replay-protection
transform.

Machine integers (`U256`, `u64`) are modelled as `Nat`; wrapping 64-bit
arithmetic is made explicit with `% 2 ^ 64` where the source performs `u64`
arithmetic that can overflow.  The external RLP encoding primitive and the
keccak hash are out of scope of the repository (the spec treats them as black
boxes); they are modelled from the spec at the typed-item level: a container
is a list of typed items read back positionally, and the hash is an opaque
injective digest of a container's contents.
-/

set_option maxHeartbeats 1000000

namespace MmLegacy

/-- Modelled from the spec: the action/destination representation, an external
collaborator of this core: "call an existing account" with an address, or
"create a new account" with no address.  The 160-bit address is modelled as a
`Nat`. -/
inductive Action where
  | create : Action
  | call (addr : Nat) : Action
deriving DecidableEq, Repr

/-- Modelled from the spec: one typed item of the external list-encoding
primitive ("a black box that can append integers/bytes/sub-lists and can be
parsed back into typed fields by position").  The items this codec appends
are unsigned integers (`U256`, `u64` and the literal byte `0` all append an
integer), byte sequences, and the action value. -/
inductive RlpItem where
  | uint (n : Nat) : RlpItem
  | bytes (b : List Nat) : RlpItem
  | action (a : Action) : RlpItem
deriving DecidableEq, Repr

/-- Modelled from the spec: the decode-error family of the external encoding
primitive plus the local item-count check (`MalformedContainer`). -/
inductive DecoderError where
  | rlpIncorrectListLen : DecoderError
  | rlpIsTooShort : DecoderError
  | rlpIsTooBig : DecoderError
  | rlpExpectedToBeData : DecoderError
deriving DecidableEq, Repr

/-- The error type of the envelope constructors (`Error::InvalidSignature`). -/
inductive Error where
  | invalidSignature (msg : String) : Error
deriving DecidableEq, Repr

/-- Modelled from the spec: the opaque 256-bit digest.  Collision-freedom of
the external hash primitive is modelled by letting a digest carry the hashed
container contents, so two digests are equal exactly when the hashed bytes
are. -/
structure H256 where
  raw : List RlpItem
deriving DecidableEq, Repr

/-- Modelled from the spec: the external 256-bit hash primitive applied to the
raw contents of a container. -/
def keccak (l : List RlpItem) : H256 := ⟨l⟩

/-- Read the item at position `i` of a container (`Rlp::at`); positions past
the end of the container fail with a structural decode error. -/
def val_at (d : List RlpItem) (i : Nat) : Except DecoderError RlpItem :=
  match d.get? i with
  | some it => .ok it
  | none => .error .rlpIsTooShort

/-- Modelled from the spec: parse an item back as a `w`-bit unsigned integer
(`U256` for `w = 256`, `u64` for `w = 64`); an out-of-range value or an item
of another type is a field-level decode error. -/
def decodeUint (w : Nat) : RlpItem → Except DecoderError Nat
  | .uint n => if n < 2 ^ w then .ok n else .error .rlpIsTooBig
  | _ => .error .rlpExpectedToBeData

/-- Modelled from the spec: parse an item back as a byte sequence. -/
def decodeBytes : RlpItem → Except DecoderError (List Nat)
  | .bytes b => .ok b
  | _ => .error .rlpExpectedToBeData

/-- Modelled from the spec: parse an item back as an action value. -/
def decodeAction : RlpItem → Except DecoderError Action
  | .action a => .ok a
  | _ => .error .rlpExpectedToBeData

/-- `LegacyTransaction`: the six logical fields of the unsigned transaction.
`U256` fields are `Nat`, `Bytes` is a byte list. -/
structure LegacyTransaction where
  nonce : Nat
  gas_price : Nat
  gas : Nat
  action : Action
  value : Nat
  data : List Nat
deriving DecidableEq, Repr

/-- `LegacyTransaction::payload_size`: tx list item count of the signing
preimage. -/
def payload_size (chain_id : Option Nat) : Nat :=
  if chain_id = none then 6 else 9

/-- `LegacyTransaction::rlp_append_unsigned_transaction`: the signing
preimage; six fields, plus `chainId, 0, 0` when a chain id is supplied. -/
def rlp_append_unsigned_transaction (t : LegacyTransaction)
    (chain_id : Option Nat) : List RlpItem :=
  [.uint t.nonce, .uint t.gas_price, .uint t.gas, .action t.action,
   .uint t.value, .bytes t.data] ++
  (match chain_id with
   | some n => [.uint n, .uint 0, .uint 0]
   | none => [])

/-- `TransactionShared::message_hash` for `LegacyTransaction`. -/
def message_hash (t : LegacyTransaction) (chain_id : Option Nat) : H256 :=
  keccak (rlp_append_unsigned_transaction t chain_id)

/-- `impl rlp::Decodable for LegacyTransaction`: reads fields at positions
0..5; no item-count check is performed at this layer. -/
def LegacyTransaction.decode (d : List RlpItem) :
    Except DecoderError LegacyTransaction := do
  let nonce ← val_at d 0 >>= decodeUint 256
  let gas_price ← val_at d 1 >>= decodeUint 256
  let gas ← val_at d 2 >>= decodeUint 256
  let action ← val_at d 3 >>= decodeAction
  let value ← val_at d 4 >>= decodeUint 256
  let data ← val_at d 5 >>= decodeBytes
  pure { nonce, gas_price, gas, action, value, data }

namespace eip155_methods

/-- `eip155_methods::add_chain_replay_protection`: adds chain id into v.
The source computes `v + if let Some(n) = chain_id { 35 + n * 2 } else { 27 }`
in `u64` arithmetic, which wraps modulo `2 ^ 64`. -/
def add_chain_replay_protection (v : Nat) (chain_id : Option Nat) : Nat :=
  (v + (match chain_id with
        | some n => 35 + n * 2
        | none => 27)) % 2 ^ 64

/-- `eip155_methods::check_replay_protection`: returns refined v; 0 if `v`
would have been 27 under "Electrum" notation, 1 if 28 or 4 if invalid.  A
total function: it never errors. -/
def check_replay_protection (v : Nat) : Nat :=
  if v = 27 then 0
  else if v = 28 then 1
  else if v > 36 then (v - 1) % 2
  else 4

end eip155_methods

/-- `UnverifiedLegacyTransaction`: signed transaction information without
verified signature. -/
structure UnverifiedLegacyTransaction where
  unsigned : LegacyTransaction
  network_v : Nat
  r : Nat
  s : Nat
  hash : H256
deriving DecidableEq, Repr

namespace UnverifiedLegacyTransaction

/-- `impl rlp::Decodable for UnverifiedLegacyTransaction`: rejects any
container whose item count is not 9, hashes the raw input, then reads the
six unsigned fields and `network_v`, `r`, `s` at positions 6, 7, 8. -/
def decode (d : List RlpItem) :
    Except DecoderError UnverifiedLegacyTransaction :=
  if d.length ≠ 9 then .error .rlpIncorrectListLen
  else do
    let unsigned ← LegacyTransaction.decode d
    let network_v ← val_at d 6 >>= decodeUint 64
    let r ← val_at d 7 >>= decodeUint 256
    let s ← val_at d 8 >>= decodeUint 256
    pure { unsigned, network_v, r, s, hash := keccak d }

/-- `UnverifiedLegacyTransaction::rlp_append_sealed_transaction`: always emits
exactly 9 items in the fixed order nonce, gasPrice, gasLimit, action, value,
data, networkV, r, s. -/
def rlp_append_sealed_transaction (t : UnverifiedLegacyTransaction) :
    List RlpItem :=
  [.uint t.unsigned.nonce, .uint t.unsigned.gas_price, .uint t.unsigned.gas,
   .action t.unsigned.action, .uint t.unsigned.value, .bytes t.unsigned.data,
   .uint t.network_v, .uint t.r, .uint t.s]

/-- `UnverifiedLegacyTransaction::validate_v`: `(0..=1).contains(&v)`. -/
def validate_v (v : Nat) : Bool := decide (v ≤ 1)

/-- `UnverifiedLegacyTransaction::to_network_v`. -/
def to_network_v (v : Nat) (chain_id : Option Nat) : Nat :=
  eip155_methods.add_chain_replay_protection v chain_id

/-- `UnverifiedLegacyTransaction::new_with_chain_id`: rejects a recovery id
outside `{0, 1}` with `InvalidSignature`, otherwise replay-protection-encodes
it into `network_v`. -/
def new_with_chain_id (unsigned : LegacyTransaction) (r s : Nat) (v : Nat)
    (chain_id : Option Nat) (hash : H256) :
    Except Error UnverifiedLegacyTransaction :=
  if ¬ validate_v v then .error (.invalidSignature "invalid sig v")
  else .ok { unsigned, r, s, network_v := to_network_v v chain_id, hash }

/-- `UnverifiedLegacyTransaction::new_with_network_v`: accepts `network_v`
verbatim, with no validation. -/
def new_with_network_v (unsigned : LegacyTransaction) (r s : Nat)
    (network_v : Nat) (hash : H256) :
    Except Error UnverifiedLegacyTransaction :=
  .ok { unsigned, r, s, network_v, hash }

/-- `UnverifiedLegacyTransaction::standard_v`. -/
def standard_v (t : UnverifiedLegacyTransaction) : Nat :=
  eip155_methods.check_replay_protection t.network_v

/-- Well-formedness of an envelope value: every numeric field fits the width
of its Rust machine type (`U256` fields below `2 ^ 256`, `network_v` below
`2 ^ 64`).  Every value the Rust code can hold satisfies this by typing. -/
def wf (t : UnverifiedLegacyTransaction) : Prop :=
  t.unsigned.nonce < 2 ^ 256 ∧ t.unsigned.gas_price < 2 ^ 256 ∧
  t.unsigned.gas < 2 ^ 256 ∧ t.unsigned.value < 2 ^ 256 ∧
  t.network_v < 2 ^ 64 ∧ t.r < 2 ^ 256 ∧ t.s < 2 ^ 256

instance (t : UnverifiedLegacyTransaction) : Decidable t.wf := by
  unfold wf; infer_instance

end UnverifiedLegacyTransaction

end MmLegacy

namespace MmLegacy

open eip155_methods UnverifiedLegacyTransaction

/-- C1 counterexample: the round trip already fails at `chainId = 0`:
`encode(0, Some(0)) = 35`, and `decode(35)` is the sentinel `4`, not the
original recovery id `0`. -/
theorem check_replay_protection_roundtrip_cex :
    check_replay_protection (add_chain_replay_protection 0 (some 0)) = 4 ∧
    (4 : Nat) ≠ 0 := by
  constructor
  · decide
  · decide

/-- C1 (amended): replay-protection round trip.  For a recovery id in
`{0, 1}`, decoding recovers it after encoding with no chain id, and after
encoding with any chain id `n ≥ 1` for which the `u64` computation
`v + 35 + n * 2` does not overflow.  (At `n = 0` the encoded value is 35 or
36 and decode returns the sentinel 4; on overflow the wrapped value can also
leave the `v > 36` range.) -/
theorem check_replay_protection_roundtrip (v n : Nat) (hv : v ≤ 1)
    (hn : 1 ≤ n) (hof : v + 35 + n * 2 < 2 ^ 64) :
    check_replay_protection (add_chain_replay_protection v (some n)) = v ∧
    check_replay_protection (add_chain_replay_protection v none) = v := by
  unfold check_replay_protection add_chain_replay_protection
  constructor
  · have h1 : (v + (35 + n * 2)) % 2 ^ 64 = v + (35 + n * 2) :=
      Nat.mod_eq_of_lt (by omega)
    rw [h1]
    have h2 : ¬ v + (35 + n * 2) = 27 := by omega
    have h3 : ¬ v + (35 + n * 2) = 28 := by omega
    have h4 : v + (35 + n * 2) > 36 := by omega
    simp only [h2, h3, h4, if_false, if_true, if_pos, if_neg, not_false_iff]
    omega
  · have h1 : (v + 27) % 2 ^ 64 = v + 27 := Nat.mod_eq_of_lt (by omega)
    rw [h1]
    interval_cases v <;> decide

/-- C1 witness: the round trip at `v = 1`, `chainId = Some 1` (and `None`). -/
theorem check_replay_protection_roundtrip_witness :
    check_replay_protection (add_chain_replay_protection 1 (some 1)) = 1 ∧
    check_replay_protection (add_chain_replay_protection 1 none) = 1 :=
  check_replay_protection_roundtrip 1 1 (by decide) (by decide) (by norm_num)

/-- C5 counterexample: with `chainId = 2 ^ 63` the `u64` computation wraps,
so `encode(0, Some(2 ^ 63)) = 35`, not the exact integer
`0 + 35 + 2 ^ 63 * 2 = 2 ^ 64 + 35`. -/
theorem add_chain_replay_protection_exact_cex :
    add_chain_replay_protection 0 (some (2 ^ 63)) = 35 ∧
    add_chain_replay_protection 0 (some (2 ^ 63)) ≠ 0 + 35 + 2 ^ 63 * 2 := by
  unfold add_chain_replay_protection
  norm_num

/-- C5 (amended): the encode formula, exact as long as the `u64` arithmetic
does not overflow: for a recovery id in `{0, 1}`,
`encode(v, Some(n)) = v + 35 + n * 2` whenever that integer fits in 64 bits
(in general the code yields it reduced modulo `2 ^ 64`), and
`encode(v, None) = v + 27` always.  `encode` is total on its whole domain. -/
theorem add_chain_replay_protection_formula (v n : Nat) (hv : v ≤ 1)
    (hof : v + 35 + n * 2 < 2 ^ 64) :
    add_chain_replay_protection v (some n) = v + 35 + n * 2 ∧
    add_chain_replay_protection v none = v + 27 ∧
    add_chain_replay_protection v (some n) = (v + 35 + n * 2) % 2 ^ 64 := by
  unfold add_chain_replay_protection
  refine ⟨?_, ?_, ?_⟩
  · rw [show v + (35 + n * 2) = v + 35 + n * 2 by omega]
    exact Nat.mod_eq_of_lt hof
  · show (v + 27) % 2 ^ 64 = v + 27
    exact Nat.mod_eq_of_lt (by omega)
  · rw [show v + (35 + n * 2) = v + 35 + n * 2 by omega]

/-- C5 witness: `encode(0, Some(1)) = 37 = 0 + 35 + 1 * 2` and
`encode(0, None) = 27`. -/
theorem add_chain_replay_protection_formula_witness :
    add_chain_replay_protection 0 (some 1) = 0 + 35 + 1 * 2 ∧
    add_chain_replay_protection 0 none = 0 + 27 ∧
    add_chain_replay_protection 0 (some 1) = (0 + 35 + 1 * 2) % 2 ^ 64 :=
  add_chain_replay_protection_formula 0 1 (by decide) (by norm_num)

/-- C7: the decode mapping: `27 ↦ 0`, `28 ↦ 1`, `v > 36 ↦ (v - 1) % 2`, and
the sentinel `4` everywhere else; `check_replay_protection` is a total
function, so it never raises an error. -/
theorem check_replay_protection_spec (v : Nat) (h : v < 2 ^ 64) :
    check_replay_protection 27 = 0 ∧
    check_replay_protection 28 = 1 ∧
    (v > 36 → check_replay_protection v = (v - 1) % 2) ∧
    (v ≠ 27 → v ≠ 28 → ¬ v > 36 → check_replay_protection v = 4) := by
  unfold check_replay_protection
  refine ⟨by decide, by decide, ?_, ?_⟩
  · intro hgt
    have h1 : ¬ v = 27 := by omega
    have h2 : ¬ v = 28 := by omega
    simp [h1, h2, hgt]
  · intro h1 h2 h3
    simp [h1, h2, h3]

/-- C7 witness: the mapping fully instantiated at `v = 37` (a chain-bound
value) and at `v = 29` (a sentinel input). -/
theorem check_replay_protection_spec_witness :
    check_replay_protection 27 = 0 ∧
    check_replay_protection 28 = 1 ∧
    check_replay_protection 37 = (37 - 1) % 2 ∧
    check_replay_protection 29 = 4 :=
  ⟨(check_replay_protection_spec 37 (by norm_num)).1,
   (check_replay_protection_spec 37 (by norm_num)).2.1,
   (check_replay_protection_spec 37 (by norm_num)).2.2.1 (by norm_num),
   (check_replay_protection_spec 29 (by norm_num)).2.2.2 (by norm_num)
     (by norm_num) (by norm_num)⟩

end MmLegacy

namespace MmLegacy

open eip155_methods UnverifiedLegacyTransaction

/-- Successful bind in `Except` splits into two successful steps. -/
theorem except_bind_ok {ε α β : Type} (x : Except ε α) (f : α → Except ε β)
    (b : β) :
    (x >>= f = Except.ok b) ↔ ∃ a, x = Except.ok a ∧ f a = Except.ok b := by
  cases x <;> simp [Bind.bind, Except.bind]

/-- A successful positional read returns the item stored at that position. -/
theorem val_at_ok {d : List RlpItem} {i : Nat} {it : RlpItem}
    (h : val_at d i = .ok it) : d.get? i = some it := by
  unfold val_at at h
  cases hg : d.get? i <;> rw [hg] at h <;> simp_all

/-- A successful integer decode pins down the item and the bound. -/
theorem decodeUint_ok {w : Nat} {it : RlpItem} {n : Nat}
    (h : decodeUint w it = .ok n) : it = .uint n ∧ n < 2 ^ w := by
  cases it with
  | uint m =>
    simp only [decodeUint] at h
    by_cases hlt : m < 2 ^ w
    · rw [if_pos hlt] at h
      injection h with h
      subst h
      exact ⟨rfl, hlt⟩
    · rw [if_neg hlt] at h
      simp at h
  | bytes b => simp [decodeUint] at h
  | action a => simp [decodeUint] at h

/-- A successful byte-sequence decode pins down the item. -/
theorem decodeBytes_ok {it : RlpItem} {b : List Nat}
    (h : decodeBytes it = .ok b) : it = .bytes b := by
  cases it <;> simp [decodeBytes] at h
  · rw [h]

/-- A successful action decode pins down the item. -/
theorem decodeAction_ok {it : RlpItem} {a : Action}
    (h : decodeAction it = .ok a) : it = .action a := by
  cases it <;> simp [decodeAction] at h
  · rw [h]

/-- A transaction used in concrete instances below. -/
def blankTx : LegacyTransaction :=
  { nonce := 0, gas_price := 0, gas := 0, action := .create, value := 0,
    data := [] }

/-- C10: `new_with_network_v` never fails: for every unsigned transaction,
`r`, `s`, `network_v` (including the raw recovery ids 0 and 1) and hash it
returns a successfully constructed envelope, so the error case its `Result`
signature advertises is unreachable. -/
theorem new_with_network_v_total (u : LegacyTransaction) (r s nv : Nat)
    (h : H256) :
    new_with_network_v u r s nv h =
      .ok { unsigned := u, network_v := nv, r := r, s := s, hash := h } :=
  rfl

/-- C8: `InvalidSignature` behaviour of the recovery-id constructor:
`new_with_chain_id` fails with `InvalidSignature` exactly when the supplied
recovery id is not in `{0, 1}`, succeeds (with the replay-protection-encoded
`network_v`) when it is, and the only other fallible operation of this core,
`new_with_network_v`, never returns an error at all. -/
theorem new_with_chain_id_invalid_signature (u : LegacyTransaction)
    (r s v : Nat) (c : Option Nat) (hsh : H256) (hv : v < 2 ^ 64) :
    (new_with_chain_id u r s v c hsh =
        .error (.invalidSignature "invalid sig v") ↔ 2 ≤ v) ∧
    (v ≤ 1 → new_with_chain_id u r s v c hsh =
        .ok { unsigned := u, network_v := to_network_v v c, r := r, s := s,
              hash := hsh }) ∧
    (∀ (u2 : LegacyTransaction) (r2 s2 nv : Nat) (h2 : H256) (err : Error),
      new_with_network_v u2 r2 s2 nv h2 ≠ .error err) := by
  refine ⟨?_, ?_, ?_⟩
  · by_cases hle : v ≤ 1
    · simp [new_with_chain_id, validate_v, hle]
      omega
    · simp [new_with_chain_id, validate_v, hle]
      omega
  · intro hle
    simp [new_with_chain_id, validate_v, hle]
  · intro u2 r2 s2 nv h2 err
    simp [new_with_network_v]

/-- C8 witness: at `v = 2` the constructor fails with `InvalidSignature`, and
at `v = 1` it succeeds with the encoded `network_v`. -/
theorem new_with_chain_id_invalid_signature_witness :
    new_with_chain_id blankTx 0 0 2 none (keccak []) =
      .error (.invalidSignature "invalid sig v") ∧
    new_with_chain_id blankTx 0 0 1 none (keccak []) =
      .ok { unsigned := blankTx, network_v := to_network_v 1 none, r := 0,
            s := 0, hash := keccak [] } :=
  ⟨((new_with_chain_id_invalid_signature blankTx 0 0 2 none (keccak [])
      (by norm_num)).1).mpr (by norm_num),
   (new_with_chain_id_invalid_signature blankTx 0 0 1 none (keccak [])
      (by norm_num)).2.1 (by norm_num)⟩

/-- An envelope with a raw recovery id as `network_v`, reachable through
`new_with_network_v`. -/
def rawVEnv : UnverifiedLegacyTransaction :=
  { unsigned := blankTx, network_v := 0, r := 0, s := 0, hash := keccak [] }

/-- C3 counterexample: `new_with_network_v` accepts the raw recovery id `0`
verbatim, so a constructed-and-accepted envelope whose `network_v` is a raw
0/1 recovery id is reachable. -/
theorem network_v_raw_recovery_id_cex :
    new_with_network_v blankTx 0 0 0 (keccak []) = .ok rawVEnv ∧
    rawVEnv.network_v = 0 :=
  ⟨rfl, rfl⟩

/-- C3 (amended): only the recovery-id constructor guarantees an encoded
`network_v`: every envelope it accepts carries
`network_v = add_chain_replay_protection v chain_id`, which is at least 27
whenever the 64-bit encode arithmetic does not overflow; `new_with_network_v`
(and decode) accept any 64-bit value verbatim, including raw 0/1. -/
theorem new_with_chain_id_network_v_encoded (u : LegacyTransaction)
    (r s v : Nat) (c : Option Nat) (hsh : H256)
    (e : UnverifiedLegacyTransaction)
    (hof : ∀ n, c = some n → v + 35 + n * 2 < 2 ^ 64)
    (h : new_with_chain_id u r s v c hsh = .ok e) :
    e.network_v = add_chain_replay_protection v c ∧ 27 ≤ e.network_v := by
  have hle : v ≤ 1 := by
    by_contra hgt
    simp [new_with_chain_id, validate_v, hgt] at h
  rw [new_with_chain_id, if_neg (by simp [validate_v, hle])] at h
  have he : e = { unsigned := u, network_v := to_network_v v c, r := r,
                  s := s, hash := hsh } := by
    cases h; rfl
  subst he
  refine ⟨rfl, ?_⟩
  show 27 ≤ to_network_v v c
  unfold to_network_v add_chain_replay_protection
  cases c with
  | none =>
    show 27 ≤ (v + 27) % 2 ^ 64
    rw [Nat.mod_eq_of_lt (by omega)]
    omega
  | some n =>
    show 27 ≤ (v + (35 + n * 2)) % 2 ^ 64
    have := hof n rfl
    rw [Nat.mod_eq_of_lt (by omega)]
    omega

/-- C3 witness: the amended statement instantiated at `v = 0`,
`chainId = Some 1`: the accepted envelope carries `network_v = 37 ≥ 27`. -/
theorem new_with_chain_id_network_v_encoded_witness :
    ({ unsigned := blankTx, network_v := to_network_v 0 (some 1), r := 0,
       s := 0, hash := keccak [] } :
        UnverifiedLegacyTransaction).network_v =
      add_chain_replay_protection 0 (some 1) ∧
    27 ≤ ({ unsigned := blankTx, network_v := to_network_v 0 (some 1),
            r := 0, s := 0, hash := keccak [] } :
        UnverifiedLegacyTransaction).network_v :=
  new_with_chain_id_network_v_encoded blankTx 0 0 0 (some 1) (keccak []) _
    (by intro n hn; cases hn; norm_num) rfl

end MmLegacy

namespace MmLegacy

open eip155_methods UnverifiedLegacyTransaction

/-- A successful unsigned decode pins down the first six items of the
container (and the `U256` bounds of the numeric fields); it says nothing
about the container's arity beyond position 5. -/
theorem legacy_decode_ok {d : List RlpItem} {t : LegacyTransaction}
    (h : LegacyTransaction.decode d = .ok t) :
    d.get? 0 = some (.uint t.nonce) ∧ t.nonce < 2 ^ 256 ∧
    d.get? 1 = some (.uint t.gas_price) ∧ t.gas_price < 2 ^ 256 ∧
    d.get? 2 = some (.uint t.gas) ∧ t.gas < 2 ^ 256 ∧
    d.get? 3 = some (.action t.action) ∧
    d.get? 4 = some (.uint t.value) ∧ t.value < 2 ^ 256 ∧
    d.get? 5 = some (.bytes t.data) := by
  unfold LegacyTransaction.decode at h
  simp only [except_bind_ok, pure, Except.pure, Except.ok.injEq] at h
  obtain ⟨n0, ⟨i0, hv0, hu0⟩, n1, ⟨i1, hv1, hu1⟩, n2, ⟨i2, hv2, hu2⟩,
    a3, ⟨i3, hv3, ha3⟩, n4, ⟨i4, hv4, hu4⟩, b5, ⟨i5, hv5, hb5⟩, ht⟩ := h
  obtain ⟨hi0, hb0⟩ := decodeUint_ok hu0
  obtain ⟨hi1, hb1⟩ := decodeUint_ok hu1
  obtain ⟨hi2, hb2⟩ := decodeUint_ok hu2
  have hi3 := decodeAction_ok ha3
  obtain ⟨hi4, hb4⟩ := decodeUint_ok hu4
  have hi5 := decodeBytes_ok hb5
  subst ht
  subst hi0; subst hi1; subst hi2; subst hi3; subst hi4; subst hi5
  exact ⟨val_at_ok hv0, hb0, val_at_ok hv1, hb1, val_at_ok hv2, hb2,
    val_at_ok hv3, val_at_ok hv4, hb4, val_at_ok hv5⟩

/-- A 6-item container whose decode succeeds. -/
def sixItems : List RlpItem :=
  [.uint 0, .uint 0, .uint 0, .action .create, .uint 0, .bytes []]

/-- A 7-item container: the 6 fields of `blankTx` followed by one extra
item. -/
def sevenItems : List RlpItem := sixItems ++ [.uint 0]

/-- C4 counterexample: standalone unsigned decoding does NOT reject a
container of arity 7: it succeeds, ignoring the extra item. -/
theorem legacy_decode_arity_cex :
    sevenItems.length = 7 ∧
    LegacyTransaction.decode sevenItems = .ok blankTx :=
  ⟨rfl, rfl⟩

/-- C4 (amended): standalone unsigned decoding performs no arity check of
its own: it reads only positions 0..5, so appending extra items never
changes the result, and it fails with a structural decode error exactly when
the container is too short (fewer than 6 items) or a field itself fails to
decode.  The ≠ 6 arity rejection exists only at the signed 9-item layer. -/
theorem legacy_decode_no_arity_check (d extra : List RlpItem)
    (h6 : 6 ≤ d.length) :
    LegacyTransaction.decode (d ++ extra) = LegacyTransaction.decode d ∧
    ∀ ds : List RlpItem, ds.length < 6 →
      ∃ err, LegacyTransaction.decode ds = .error err := by
  have hva : ∀ i, i < d.length → val_at (d ++ extra) i = val_at d i := by
    intro i hi
    unfold val_at
    rw [List.get?_append hi]
  constructor
  · unfold LegacyTransaction.decode
    rw [hva 0 (by omega), hva 1 (by omega), hva 2 (by omega),
      hva 3 (by omega), hva 4 (by omega), hva 5 (by omega)]
  · intro ds hlen
    cases hd : LegacyTransaction.decode ds with
    | error err => exact ⟨err, rfl⟩
    | ok t =>
      have h5 := (legacy_decode_ok hd).2.2.2.2.2.2.2.2.2
      rw [List.get?_eq_some] at h5
      obtain ⟨hlt, -⟩ := h5
      omega

/-- C4 witness: the no-arity-check half instantiated at the concrete 6-item
container and one extra item. -/
theorem legacy_decode_no_arity_check_witness :
    LegacyTransaction.decode (sixItems ++ [RlpItem.uint 0]) =
      LegacyTransaction.decode sixItems :=
  (legacy_decode_no_arity_check sixItems [RlpItem.uint 0] (by decide)).1

/-- The unsigned part of the concrete signed container below. -/
def sampleTx : LegacyTransaction :=
  { nonce := 1, gas_price := 2, gas := 3, action := .create, value := 4,
    data := [5] }

/-- A concrete well-formed 9-item signed container. -/
def sampleSigned : List RlpItem :=
  [.uint 1, .uint 2, .uint 3, .action .create, .uint 4, .bytes [5],
   .uint 37, .uint 6, .uint 7]

/-- C9: signed-decode arity check: decoding fails with the incorrect-list-
length error on every container whose item count is not 9, and succeeds on
every 9-item container whose individual fields decode without error,
producing the envelope of those fields with the digest of the raw input. -/
theorem unverified_decode_arity (d : List RlpItem) (t : LegacyTransaction)
    (v r s : Nat) (h9 : d.length = 9)
    (ht : LegacyTransaction.decode d = .ok t)
    (hv : val_at d 6 >>= decodeUint 64 = .ok v)
    (hr : val_at d 7 >>= decodeUint 256 = .ok r)
    (hs : val_at d 8 >>= decodeUint 256 = .ok s) :
    UnverifiedLegacyTransaction.decode d =
      .ok { unsigned := t, network_v := v, r := r, s := s,
            hash := keccak d } ∧
    ∀ d2 : List RlpItem, d2.length ≠ 9 →
      UnverifiedLegacyTransaction.decode d2 = .error .rlpIncorrectListLen := by
  constructor
  · rw [UnverifiedLegacyTransaction.decode, if_neg (by omega)]
    rw [ht, hv, hr, hs]
    rfl
  · intro d2 hne
    rw [UnverifiedLegacyTransaction.decode, if_pos hne]

/-- C9 witness: the concrete 9-item container decodes successfully, and its
8-item prefix is rejected with the incorrect-list-length error. -/
theorem unverified_decode_arity_witness :
    UnverifiedLegacyTransaction.decode sampleSigned =
      .ok { unsigned := sampleTx, network_v := 37, r := 6, s := 7,
            hash := keccak sampleSigned } ∧
    UnverifiedLegacyTransaction.decode (sampleSigned.take 8) =
      .error .rlpIncorrectListLen :=
  ⟨(unverified_decode_arity sampleSigned sampleTx 37 6 7 rfl rfl rfl rfl
      rfl).1,
   (unverified_decode_arity sampleSigned sampleTx 37 6 7 rfl rfl rfl rfl
      rfl).2 (sampleSigned.take 8) (by decide)⟩

end MmLegacy

namespace MmLegacy

open eip155_methods UnverifiedLegacyTransaction

/-- An envelope built by `new_with_network_v` with a digest unrelated to its
own encoding. -/
def staleDigestEnv : UnverifiedLegacyTransaction :=
  { unsigned := blankTx, network_v := 37, r := 1, s := 1, hash := keccak [] }

/-- C2 counterexample: the constructors accept the caller-supplied digest
verbatim, so a constructed-and-accepted envelope whose `identityDigest` is
NOT the hash of its own nine-field re-encoding is reachable. -/
theorem digest_invariant_cex :
    new_with_network_v blankTx 1 1 37 (keccak []) = .ok staleDigestEnv ∧
    staleDigestEnv.hash ≠ keccak (rlp_append_sealed_transaction staleDigestEnv) := by
  refine ⟨rfl, ?_⟩
  decide

/-- C2 (amended): the digest invariant holds on the decode path: every
envelope produced by a successful decode re-encodes to exactly the container
it was decoded from, and its `identityDigest` is the hash of those bytes.
Envelopes built by the two constructors carry the caller-supplied digest
verbatim, so for them the invariant is only as good as the caller. -/
theorem decode_digest_invariant (d : List RlpItem)
    (e : UnverifiedLegacyTransaction)
    (h : UnverifiedLegacyTransaction.decode d = .ok e) :
    rlp_append_sealed_transaction e = d ∧
    e.hash = keccak (rlp_append_sealed_transaction e) := by
  have hl : d.length = 9 := by
    by_contra hne
    rw [UnverifiedLegacyTransaction.decode, if_pos hne] at h
    simp at h
  rw [UnverifiedLegacyTransaction.decode, if_neg (by omega)] at h
  simp only [except_bind_ok, pure, Except.pure, Except.ok.injEq] at h
  obtain ⟨t, ht, v, ⟨i6, hv6, hu6⟩, r, ⟨i7, hv7, hu7⟩, s, ⟨i8, hv8, hu8⟩,
    he⟩ := h
  obtain ⟨hg0, -, hg1, -, hg2, -, hg3, hg4, -, hg5⟩ := legacy_decode_ok ht
  obtain ⟨hi6, -⟩ := decodeUint_ok hu6
  obtain ⟨hi7, -⟩ := decodeUint_ok hu7
  obtain ⟨hi8, -⟩ := decodeUint_ok hu8
  subst hi6; subst hi7; subst hi8
  have hg6 := val_at_ok hv6
  have hg7 := val_at_ok hv7
  have hg8 := val_at_ok hv8
  subst he
  have henc : rlp_append_sealed_transaction
      { unsigned := t, network_v := v, r := r, s := s, hash := keccak d } =
        d := by
    apply List.ext_get?_iff.mpr
    intro n
    match n with
    | 0 => rw [hg0]; rfl
    | 1 => rw [hg1]; rfl
    | 2 => rw [hg2]; rfl
    | 3 => rw [hg3]; rfl
    | 4 => rw [hg4]; rfl
    | 5 => rw [hg5]; rfl
    | 6 => rw [hg6]; rfl
    | 7 => rw [hg7]; rfl
    | 8 => rw [hg8]; rfl
    | (n + 9) =>
      have hleft : (rlp_append_sealed_transaction
          { unsigned := t, network_v := v, r := r, s := s,
            hash := keccak d }).get? (n + 9) = none := by
        simp [rlp_append_sealed_transaction]
      have hright : d.get? (n + 9) = none := List.get?_eq_none.mpr (by omega)
      rw [hleft, hright]
  exact ⟨henc, by rw [henc]⟩

/-- C2 witness: the decode-path invariant instantiated at the concrete
9-item container. -/
theorem decode_digest_invariant_witness :
    rlp_append_sealed_transaction
        { unsigned := sampleTx, network_v := 37, r := 6, s := 7,
          hash := keccak sampleSigned } = sampleSigned ∧
    ({ unsigned := sampleTx, network_v := 37, r := 6, s := 7,
       hash := keccak sampleSigned } :
        UnverifiedLegacyTransaction).hash =
      keccak (rlp_append_sealed_transaction
        { unsigned := sampleTx, network_v := 37, r := 6, s := 7,
          hash := keccak sampleSigned }) :=
  decode_digest_invariant sampleSigned _ rfl

/-- C6: signed-envelope round trip.  For every well-formed envelope,
re-encoding emits exactly 9 items (in the fixed order of
`rlp_append_sealed_transaction`, independent of any chain id), decoding that
encoding succeeds, reproduces all nine field values, and sets the decoded
`identityDigest` to the hash of the re-encoded bytes. -/
theorem sealed_roundtrip (e : UnverifiedLegacyTransaction) (hwf : e.wf) :
    (rlp_append_sealed_transaction e).length = 9 ∧
    UnverifiedLegacyTransaction.decode (rlp_append_sealed_transaction e) =
      .ok { e with hash := keccak (rlp_append_sealed_transaction e) } := by
  obtain ⟨h1, h2, h3, h4, h5, h6, h7⟩ := hwf
  norm_num at h1 h2 h3 h4 h5 h6 h7
  refine ⟨rfl, ?_⟩
  rw [UnverifiedLegacyTransaction.decode,
    if_neg (by simp [rlp_append_sealed_transaction])]
  rw [show LegacyTransaction.decode (rlp_append_sealed_transaction e) =
      .ok e.unsigned from ?_]
  · rw [show val_at (rlp_append_sealed_transaction e) 6 >>= decodeUint 64 =
        .ok e.network_v from ?_,
      show val_at (rlp_append_sealed_transaction e) 7 >>= decodeUint 256 =
        .ok e.r from ?_,
      show val_at (rlp_append_sealed_transaction e) 8 >>= decodeUint 256 =
        .ok e.s from ?_]
    · rfl
    · simp [rlp_append_sealed_transaction, val_at, decodeUint, Bind.bind,
        Except.bind, h7]
    · simp [rlp_append_sealed_transaction, val_at, decodeUint, Bind.bind,
        Except.bind, h6]
    · simp [rlp_append_sealed_transaction, val_at, decodeUint, Bind.bind,
        Except.bind, h5]
  · unfold LegacyTransaction.decode
    rw [show val_at (rlp_append_sealed_transaction e) 0 >>= decodeUint 256 =
        .ok e.unsigned.nonce from by
          simp [rlp_append_sealed_transaction, val_at, decodeUint, Bind.bind,
            Except.bind, h1],
      show val_at (rlp_append_sealed_transaction e) 1 >>= decodeUint 256 =
        .ok e.unsigned.gas_price from by
          simp [rlp_append_sealed_transaction, val_at, decodeUint, Bind.bind,
            Except.bind, h2],
      show val_at (rlp_append_sealed_transaction e) 2 >>= decodeUint 256 =
        .ok e.unsigned.gas from by
          simp [rlp_append_sealed_transaction, val_at, decodeUint, Bind.bind,
            Except.bind, h3],
      show val_at (rlp_append_sealed_transaction e) 3 >>= decodeAction =
        .ok e.unsigned.action from by
          simp [rlp_append_sealed_transaction, val_at, decodeAction,
            Bind.bind, Except.bind],
      show val_at (rlp_append_sealed_transaction e) 4 >>= decodeUint 256 =
        .ok e.unsigned.value from by
          simp [rlp_append_sealed_transaction, val_at, decodeUint, Bind.bind,
            Except.bind, h4],
      show val_at (rlp_append_sealed_transaction e) 5 >>= decodeBytes =
        .ok e.unsigned.data from by
          simp [rlp_append_sealed_transaction, val_at, decodeBytes,
            Bind.bind, Except.bind]]
    rfl

/-- C6 witness: the round trip at a concrete well-formed envelope. -/
theorem sealed_roundtrip_witness :
    (rlp_append_sealed_transaction staleDigestEnv).length = 9 ∧
    UnverifiedLegacyTransaction.decode
        (rlp_append_sealed_transaction staleDigestEnv) =
      .ok { staleDigestEnv with
            hash := keccak (rlp_append_sealed_transaction staleDigestEnv) } :=
  sealed_roundtrip staleDigestEnv (by decide)

end MmLegacy
